import Mathlib

/-!
# Verification of the price-files downloader

A shallow embedding of `src/price-files-downloader.js` (a batch download
pipeline: link extraction with a primary and a fallback strategy, bounded
concurrent batch downloads, per-file post-processing, and a run-metadata
record), together with theorems checking the specification's claims about
it.

External effects (HTTP requests, the filesystem, the `unzip` subprocess)
are modelled by explicit oracles passed as function arguments; the
nondeterministic completion order of the concurrent downloads inside one
batch is modelled by a scheduling function that permutes each batch.
-/

namespace PriceDownloader

/-! ## Configuration (the `CONFIG` object of the source) -/

/-- `CONFIG.maxConcurrentDownloads` in the source. -/
def CONFIG_maxConcurrentDownloads : Nat := 5

/-- `CONFIG.url` in the source. -/
def CONFIG_url : String := "https://www.konzum.hr/cjenici"

/-- `new URL(CONFIG.url).protocol` for the configured page URL. -/
def CONFIG_urlProtocol : String := "https:"

/-- `new URL(CONFIG.url).host` for the configured page URL. -/
def CONFIG_urlHost : String := "www.konzum.hr"

/-! ## Data model -/

/-- A link extracted from the page: `{ url, filename }` as pushed by
`extractDownloadLinks` / `fetchLinksWithCurl`. -/
structure Link where
  url : String
  filename : String
deriving Repr, DecidableEq

/-- An entry of `results.success` in `downloadAllFiles`:
`{ ...link, filePath }`. -/
structure SuccessEntry where
  link : Link
  filePath : String
deriving Repr, DecidableEq

/-- An entry of `results.failed` in `downloadAllFiles`:
`{ ...link, error: error.message }`. -/
structure FailedEntry where
  link : Link
  error : String
deriving Repr, DecidableEq

/-- The `results` object accumulated by `downloadAllFiles`. -/
structure DownloadResults where
  success : List SuccessEntry
  failed : List FailedEntry
deriving Repr, DecidableEq

/-! ## Filename sanitization (`downloadFile`, line 126) -/

/-- The character class `[a-zA-Z0-9.-]` of the sanitization regex. -/
def isAllowedChar (c : Char) : Bool :=
  c.isAlpha || c.isDigit || c == '.' || c == '-'

/-- One step of `filename.replace(/[^a-zA-Z0-9.-]/g, "_")`: a character
outside the allowed class is replaced by an underscore. -/
def sanitizeChar (c : Char) : Char :=
  if isAllowedChar c then c else '_'

/-- `filename.replace(/[^a-zA-Z0-9.-]/g, "_")` from `downloadFile`. -/
def sanitize (s : String) : String :=
  ⟨s.data.map sanitizeChar⟩

theorem sanitizeChar_sanitizeChar (c : Char) :
    sanitizeChar (sanitizeChar c) = sanitizeChar c := by
  unfold sanitizeChar
  by_cases h : isAllowedChar c
  · simp [h]
  · simp [h, show isAllowedChar '_' = false by decide]

theorem sanitize_sanitize (s : String) : sanitize (sanitize s) = sanitize s := by
  unfold sanitize
  simp [List.map_map, Function.comp_def, sanitizeChar_sanitizeChar]

theorem sanitize_mem_char {s : String} {c : Char} (hc : c ∈ (sanitize s).data) :
    isAllowedChar c = true ∨ c = '_' := by
  unfold sanitize at hc
  simp only [List.mem_map] at hc
  obtain ⟨a, -, rfl⟩ := hc
  unfold sanitizeChar
  by_cases h : isAllowedChar a
  · exact Or.inl (by simp [h])
  · exact Or.inr (by simp [h])

/-! ## Single-file download (`downloadFile`, lines 124-172)

The network is an oracle `net : Link → Except String Unit`: `.ok` means
the GET request and the streamed write succeed, `.error msg` is the
`error.message` of the axios/stream failure (timeout, unreachable URL,
write error). On success `downloadFile` resolves with the destination
path `downloadDir/sanitize(filename)`; on failure it rejects. -/

/-- Shorthand for the network oracle. -/
def Net : Type := Link → Except String Unit

/-- `downloadFile(fileInfo, index)`: computes the sanitized destination
path and either resolves with it or rejects with the error message.
The `index` argument is only used for logging in the source. -/
def downloadFile (net : Net) (downloadDir : String) (fileInfo : Link)
    (index : Nat) : Except String String :=
  let sanitizedFilename := sanitize fileInfo.filename
  let filePath := downloadDir ++ "/" ++ sanitizedFilename
  match net fileInfo with
  | .ok _ => .ok filePath
  | .error e => .error e

/-! ## Batch scheduler (`downloadAllFiles`, lines 175-214)

The source slices `links` into batches of `maxConcurrentDownloads`,
launches `downloadFile` for every link of a batch (global 1-based index
`i + batchIndex + 1`), and awaits `Promise.all` before the next batch.
Each promise's `.then` pushes onto `results.success` and its `.catch`
pushes onto `results.failed`, in the order the downloads of the batch
complete. That completion order is nondeterministic; it is modelled by a
scheduler `σ` that reorders each (indexed) batch, constrained to be a
permutation. -/

/-- A completion schedule: given the indexed links of one batch, the
order in which their promises settle. -/
def Sched : Type := List (Nat × Link) → List (Nat × Link)

/-- The `results.success` entry produced by the `.then` handler for an
indexed link, if its download succeeds. -/
def succOf (net : Net) (dir : String) (q : Nat × Link) : Option SuccessEntry :=
  match downloadFile net dir q.2 q.1 with
  | .ok fp => some ⟨q.2, fp⟩
  | .error _ => none

/-- The `results.failed` entry produced by the `.catch` handler for an
indexed link, if its download fails. -/
def failOf (net : Net) (dir : String) (q : Nat × Link) : Option FailedEntry :=
  match downloadFile net dir q.2 q.1 with
  | .ok _ => none
  | .error e => some ⟨q.2, e⟩

/-- The batch loop of `downloadAllFiles`, over links already paired with
their global 1-based indices. Each step takes the next
`maxConcurrentDownloads` links (`B` here), settles them in the order
`σ batch`, collects the success and failure pushes, and recurses on the
rest: the `await Promise.all` barrier. The `fuel` argument only bounds
the number of loop iterations so that the recursion is structural; every
iteration consumes at least one link, so `downloadAllFiles` passing the
input length never exhausts it. -/
def downloadAllFilesAux (net : Net) (dir : String) (B : Nat) (σ : Sched) :
    Nat → List (Nat × Link) → DownloadResults
  | _, [] => ⟨[], []⟩
  | 0, _ :: _ => ⟨[], []⟩
  | fuel + 1, p :: rest =>
    let batch := p :: rest.take (B - 1)
    let completed := σ batch
    let succ := completed.filterMap (succOf net dir)
    let fail := completed.filterMap (failOf net dir)
    let tail := downloadAllFilesAux net dir B σ fuel (rest.drop (B - 1))
    ⟨succ ++ tail.success, fail ++ tail.failed⟩

/-- `downloadAllFiles(links)`: batches of size `B`, global indices
starting at 1 (`i + batchIndex + 1` in the source). -/
def downloadAllFiles (net : Net) (dir : String) (B : Nat) (σ : Sched)
    (links : List Link) : DownloadResults :=
  downloadAllFilesAux net dir B σ links.length (links.enumFrom 1)

/-! ## Event trace of the batch loop

To state the ordering guarantee (batch `k` fully settled before batch
`k+1` is issued) the loop is also modelled as the sequence of request
events it performs: `issue i` when `downloadFile` is invoked for the
link with global index `i`, and `settle i r` when that download's
promise settles with result `r`. One loop iteration issues the whole
batch (in input order, via `batch.map`) and then settles it (in schedule
order, at the `Promise.all` barrier) before the next iteration runs. -/

instance {ε α : Type} [DecidableEq ε] [DecidableEq α] :
    DecidableEq (Except ε α) := fun a b =>
  match a, b with
  | .ok x, .ok y =>
    if h : x = y then isTrue (by rw [h])
    else isFalse (by intro he; cases he; exact h rfl)
  | .error x, .error y =>
    if h : x = y then isTrue (by rw [h])
    else isFalse (by intro he; cases he; exact h rfl)
  | .ok _, .error _ => isFalse (by intro he; cases he)
  | .error _, .ok _ => isFalse (by intro he; cases he)

/-- A request-level event of the download phase. -/
inductive DlEvent where
  | issue (index : Nat)
  | settle (index : Nat) (result : Except String String)
deriving Repr, DecidableEq

/-- The global index an event talks about. -/
def DlEvent.index : DlEvent → Nat
  | .issue i => i
  | .settle i _ => i

/-- The events of one batch: all issues, then all settles in completion
order. -/
def batchTrace (net : Net) (dir : String)
    (batch completed : List (Nat × Link)) : List DlEvent :=
  batch.map (fun q => .issue q.1) ++
    completed.map (fun q => .settle q.1 (downloadFile net dir q.2 q.1))

/-- The event trace of the batch loop of `downloadAllFiles` (same `fuel`
convention as `downloadAllFilesAux`). -/
def downloadTraceAux (net : Net) (dir : String) (B : Nat) (σ : Sched) :
    Nat → List (Nat × Link) → List DlEvent
  | _, [] => []
  | 0, _ :: _ => []
  | fuel + 1, p :: rest =>
    let batch := p :: rest.take (B - 1)
    batchTrace net dir batch (σ batch) ++
      downloadTraceAux net dir B σ fuel (rest.drop (B - 1))

/-- The event trace of `downloadAllFiles links`. -/
def downloadTrace (net : Net) (dir : String) (B : Nat) (σ : Sched)
    (links : List Link) : List DlEvent :=
  downloadTraceAux net dir B σ links.length (links.enumFrom 1)

/-! ## Basic facts about the download helpers -/

/-- Whether the download of a link fails under a given network oracle. -/
def isFailB (net : Net) (l : Link) : Bool :=
  match net l with
  | .ok _ => false
  | .error _ => true

theorem downloadFile_of_ok {net : Net} {l : Link} {u : Unit} (dir : String)
    (i : Nat) (h : net l = .ok u) :
    downloadFile net dir l i = .ok (dir ++ "/" ++ sanitize l.filename) := by
  simp [downloadFile, h]

theorem downloadFile_of_error {net : Net} {l : Link} {e : String}
    (dir : String) (i : Nat) (h : net l = .error e) :
    downloadFile net dir l i = .error e := by
  simp [downloadFile, h]

theorem succOf_map_link (net : Net) (dir : String) (q : Nat × Link) :
    (succOf net dir q).map SuccessEntry.link =
      if !isFailB net q.2 then some q.2 else none := by
  cases h : net q.2 <;>
    simp [succOf, downloadFile, isFailB, h]

theorem failOf_map_link (net : Net) (dir : String) (q : Nat × Link) :
    (failOf net dir q).map FailedEntry.link =
      if isFailB net q.2 then some q.2 else none := by
  cases h : net q.2 <;>
    simp [failOf, downloadFile, isFailB, h]

theorem failOf_map_filename (net : Net) (dir : String) (q : Nat × Link) :
    (failOf net dir q).map (fun f => f.link.filename) =
      if isFailB net q.2 then some q.2.filename else none := by
  cases h : net q.2 <;>
    simp [failOf, downloadFile, isFailB, h]

/-- Every indexed link contributes exactly one outcome: a success entry
or a failure entry, never both and never neither. -/
theorem filterMap_succ_fail_length (net : Net) (dir : String) :
    ∀ m : List (Nat × Link),
      (m.filterMap (succOf net dir)).length
        + (m.filterMap (failOf net dir)).length = m.length := by
  intro m
  induction m with
  | nil => simp
  | cons q m ih =>
    cases h : net q.2 <;>
      simp [List.filterMap_cons, succOf, failOf, downloadFile, h] <;>
      omega

/-- `filterMap` of a guarded `some` is a `filter` followed by a `map`. -/
theorem filterMap_guard {α β : Type} (p : α → Bool) (f : α → β) :
    ∀ l : List α,
      l.filterMap (fun x => if p x then some (f x) else none)
        = (l.filter p).map f := by
  intro l
  induction l with
  | nil => simp
  | cons a l ih =>
    by_cases h : p a <;> simp [List.filterMap_cons, List.filter_cons, h, ih]

/-- The accumulated results of the batch loop are, up to the within-batch
completion order, the `filterMap` of the per-link outcome over the whole
indexed input. -/
theorem downloadAllFilesAux_perm (net : Net) (dir : String) (B : Nat)
    (σ : Sched) (hσ : ∀ b, (σ b).Perm b) :
    ∀ (fuel : Nat) (m : List (Nat × Link)), m.length ≤ fuel →
      (downloadAllFilesAux net dir B σ fuel m).success.Perm
          (m.filterMap (succOf net dir))
        ∧ (downloadAllFilesAux net dir B σ fuel m).failed.Perm
          (m.filterMap (failOf net dir)) := by
  intro fuel
  induction fuel with
  | zero =>
    intro m hm
    rw [List.length_eq_zero.mp (Nat.le_zero.mp hm)]
    simp [downloadAllFilesAux]
  | succ n ih =>
    intro m hm
    match m with
    | [] => simp [downloadAllFilesAux]
    | p :: rest =>
      have hlen : (rest.drop (B - 1)).length ≤ n := by
        simp only [List.length_cons] at hm
        simp [List.length_drop]
        omega
      obtain ⟨ihs, ihf⟩ := ih (rest.drop (B - 1)) hlen
      have hbatch : (σ (p :: rest.take (B - 1))).Perm (p :: rest.take (B - 1)) :=
        hσ _
      have hrejoin :
          (p :: rest.take (B - 1)) ++ rest.drop (B - 1) = p :: rest := by
        rw [List.cons_append, List.take_append_drop]
      constructor
      · have hunf : (downloadAllFilesAux net dir B σ (n + 1) (p :: rest)).success
            = (σ (p :: rest.take (B - 1))).filterMap (succOf net dir)
              ++ (downloadAllFilesAux net dir B σ n (rest.drop (B - 1))).success := by
          simp [downloadAllFilesAux]
        rw [hunf, ← hrejoin, List.filterMap_append]
        exact (hbatch.filterMap _).append ihs
      · have hunf : (downloadAllFilesAux net dir B σ (n + 1) (p :: rest)).failed
            = (σ (p :: rest.take (B - 1))).filterMap (failOf net dir)
              ++ (downloadAllFilesAux net dir B σ n (rest.drop (B - 1))).failed := by
          simp [downloadAllFilesAux]
        rw [hunf, ← hrejoin, List.filterMap_append]
        exact (hbatch.filterMap _).append ihf

/-- Multiset characterisation of `downloadAllFiles`: its two result
lists are, up to completion order, the per-link outcomes of the indexed
input links. -/
theorem downloadAllFiles_perm (net : Net) (dir : String) (B : Nat)
    (σ : Sched) (hσ : ∀ b, (σ b).Perm b) (links : List Link) :
    (downloadAllFiles net dir B σ links).success.Perm
        ((links.enumFrom 1).filterMap (succOf net dir))
      ∧ (downloadAllFiles net dir B σ links).failed.Perm
        ((links.enumFrom 1).filterMap (failOf net dir)) :=
  downloadAllFilesAux_perm net dir B σ hσ links.length (links.enumFrom 1)
    (by rw [List.enumFrom_length])

/-! ## Ordering of the event trace -/

theorem take_enumFrom {α : Type} (n s : Nat) (l : List α) :
    (List.enumFrom s l).take n = List.enumFrom s (l.take n) := by
  induction l generalizing n s with
  | nil => simp
  | cons a l ih =>
    cases n with
    | zero => simp
    | succ n =>
      simp only [List.enumFrom_cons, List.take_succ_cons]
      rw [ih]

theorem drop_enumFrom {α : Type} (n s : Nat) (l : List α) :
    (List.enumFrom s l).drop n = List.enumFrom (s + n) (l.drop n) := by
  induction l generalizing n s with
  | nil => simp
  | cons a l ih =>
    cases n with
    | zero => simp
    | succ n =>
      simp only [List.enumFrom_cons, List.drop_succ_cons]
      rw [ih]
      congr 1
      omega

theorem mem_enumFrom_bounds {α : Type} {q : Nat × α} {s : Nat} {l : List α}
    (h : q ∈ List.enumFrom s l) : s ≤ q.1 ∧ q.1 < s + l.length := by
  obtain ⟨i, x⟩ := q
  have := List.mem_enumFrom h
  exact ⟨this.1, this.2.1⟩

/-- Every event of one batch's trace carries the index of a member of
that batch. -/
theorem batchTrace_index {net : Net} {dir : String}
    {batch completed : List (Nat × Link)} {e : DlEvent}
    (hc : completed.Perm batch) (he : e ∈ batchTrace net dir batch completed) :
    ∃ q ∈ batch, q.1 = e.index := by
  rcases List.mem_append.mp he with h | h
  · obtain ⟨q, hq, rfl⟩ := List.mem_map.mp h
    exact ⟨q, hq, rfl⟩
  · obtain ⟨q, hq, rfl⟩ := List.mem_map.mp h
    exact ⟨q, hc.mem_iff.mp hq, rfl⟩

/-- An issue event of one batch's trace comes from a member of the
batch. -/
theorem issue_mem_batchTrace {net : Net} {dir : String}
    {batch completed : List (Nat × Link)} {i : Nat}
    (h : DlEvent.issue i ∈ batchTrace net dir batch completed) :
    ∃ q ∈ batch, q.1 = i := by
  rcases List.mem_append.mp h with h | h
  · obtain ⟨q, hq, hqe⟩ := List.mem_map.mp h
    exact ⟨q, hq, (DlEvent.issue.injEq _ _).mp hqe.symm |>.symm⟩
  · obtain ⟨q, -, hqe⟩ := List.mem_map.mp h
    cases hqe

/-- All events of the trace of the loop started at index `s` carry an
index at least `s`. -/
theorem downloadTraceAux_index_ge (net : Net) (dir : String) (B : Nat)
    (σ : Sched) (hσ : ∀ b, (σ b).Perm b) :
    ∀ (fuel : Nat) (l : List Link), l.length ≤ fuel → ∀ s,
      ∀ e ∈ downloadTraceAux net dir B σ fuel (l.enumFrom s), s ≤ e.index := by
  intro fuel
  induction fuel with
  | zero =>
    intro l hl s e he
    rw [List.length_eq_zero.mp (Nat.le_zero.mp hl)] at he
    simp [downloadTraceAux] at he
  | succ n ih =>
    intro l hl s e he
    match l with
    | [] => simp [downloadTraceAux] at he
    | a :: l' =>
      rw [List.enumFrom_cons] at he
      have hunf : downloadTraceAux net dir B σ (n + 1)
            ((s, a) :: List.enumFrom (s + 1) l')
          = batchTrace net dir ((s, a) :: (List.enumFrom (s + 1) l').take (B - 1))
              (σ ((s, a) :: (List.enumFrom (s + 1) l').take (B - 1)))
            ++ downloadTraceAux net dir B σ n
              ((List.enumFrom (s + 1) l').drop (B - 1)) := by
        simp [downloadTraceAux]
      rw [hunf] at he
      rcases List.mem_append.mp he with h | h
      · obtain ⟨q, hq, hqe⟩ := batchTrace_index (hσ _) h
        rcases List.mem_cons.mp hq with rfl | hq'
        · omega
        · rw [take_enumFrom] at hq'
          have := (mem_enumFrom_bounds hq').1
          omega
      · rw [drop_enumFrom] at h
        have := ih (l'.drop (B - 1))
          (by simp only [List.length_cons] at hl; simp [List.length_drop]; omega)
          (s + 1 + (B - 1)) e h
        omega

/-- The trace of the loop started at index `s` splits at every batch
boundary: a prefix whose issue events all belong to the first `k+1`
batches (indices below `s + (k+1)*B`), followed by a suffix whose settle
events all belong to later batches. -/
theorem downloadTraceAux_split (net : Net) (dir : String) (B : Nat)
    (σ : Sched) (hB : 0 < B) (hσ : ∀ b, (σ b).Perm b) :
    ∀ (fuel : Nat) (l : List Link), l.length ≤ fuel → ∀ s k,
      ∃ t₁ t₂,
        downloadTraceAux net dir B σ fuel (l.enumFrom s) = t₁ ++ t₂
        ∧ (∀ i, DlEvent.issue i ∈ t₁ → i < s + (k + 1) * B)
        ∧ (∀ i r, DlEvent.settle i r ∈ t₂ → s + (k + 1) * B ≤ i) := by
  intro fuel
  induction fuel with
  | zero =>
    intro l hl s k
    rw [List.length_eq_zero.mp (Nat.le_zero.mp hl)]
    exact ⟨[], [], by simp [downloadTraceAux], by simp, by simp⟩
  | succ n ih =>
    intro l hl s k
    match l with
    | [] => exact ⟨[], [], by simp [downloadTraceAux], by simp, by simp⟩
    | a :: l' =>
      have hl' : (l'.drop (B - 1)).length ≤ n := by
        simp only [List.length_cons] at hl
        simp [List.length_drop]
        omega
      have hunf : downloadTraceAux net dir B σ (n + 1) (List.enumFrom s (a :: l'))
          = batchTrace net dir ((s, a) :: (List.enumFrom (s + 1) l').take (B - 1))
              (σ ((s, a) :: (List.enumFrom (s + 1) l').take (B - 1)))
            ++ downloadTraceAux net dir B σ n
              (List.enumFrom (s + 1 + (B - 1)) (l'.drop (B - 1))) := by
        rw [List.enumFrom_cons, ← drop_enumFrom]
        simp [downloadTraceAux]
      have hbatchmem : ∀ q ∈ ((s, a) :: (List.enumFrom (s + 1) l').take (B - 1)),
          s ≤ q.1 ∧ q.1 < s + B := by
        intro q hq
        rcases List.mem_cons.mp hq with rfl | hq'
        · omega
        · rw [take_enumFrom] at hq'
          have h1 := mem_enumFrom_bounds hq'
          have h2 : (l'.take (B - 1)).length ≤ B - 1 := by
            simp [List.length_take]
          omega
      cases k with
      | zero =>
        refine ⟨batchTrace net dir ((s, a) :: (List.enumFrom (s + 1) l').take (B - 1))
            (σ ((s, a) :: (List.enumFrom (s + 1) l').take (B - 1))),
          downloadTraceAux net dir B σ n
            (List.enumFrom (s + 1 + (B - 1)) (l'.drop (B - 1))),
          hunf, ?_, ?_⟩
        · intro i hi
          obtain ⟨q, hq, rfl⟩ := issue_mem_batchTrace hi
          have := (hbatchmem q hq).2
          omega
        · intro i r hir
          have := downloadTraceAux_index_ge net dir B σ hσ n (l'.drop (B - 1))
            hl' (s + 1 + (B - 1)) (DlEvent.settle i r) hir
          simp only [DlEvent.index] at this
          omega
      | succ k =>
        obtain ⟨t₁, t₂, heq, hiss, hset⟩ := ih (l'.drop (B - 1)) hl' (s + 1 + (B - 1)) k
        refine ⟨batchTrace net dir ((s, a) :: (List.enumFrom (s + 1) l').take (B - 1))
            (σ ((s, a) :: (List.enumFrom (s + 1) l').take (B - 1))) ++ t₁,
          t₂, by rw [hunf, heq, List.append_assoc], ?_, ?_⟩
        · intro i hi
          have harith : s + 1 + (B - 1) + (k + 1) * B = s + (k + 1 + 1) * B := by
            have : (k + 1 + 1) * B = (k + 1) * B + B := by ring
            omega
          rcases List.mem_append.mp hi with h | h
          · obtain ⟨q, hq, rfl⟩ := issue_mem_batchTrace h
            have h1 := (hbatchmem q hq).2
            have h2 : B ≤ (k + 1 + 1) * B := by
              have := Nat.mul_le_mul_right B (show 1 ≤ k + 1 + 1 by omega)
              omega
            omega
          · have := hiss i h
            omega
        · intro i r hir
          have harith : s + 1 + (B - 1) + (k + 1) * B = s + (k + 1 + 1) * B := by
            have : (k + 1 + 1) * B = (k + 1) * B + B := by ring
            omega
          have := hset i r hir
          omega

/-! ## Link extraction (`extractDownloadLinks`, lines 60-121, and
`fetchLinksWithCurl`, lines 299-346)

Both strategies query the page's DOM for the configured selector and map
every matched element to a `Link`. A matched anchor element is modelled
by its `href` attribute, its raw visible text (the source applies
`.trim()` to it), and its optional `download` attribute
(`$(element).attr("download")` is `undefined` when absent). -/

/-- JavaScript `String.prototype.trim()`: strip whitespace from both
ends. -/
def jsTrim (s : String) : String :=
  ⟨((s.data.dropWhile Char.isWhitespace).reverse.dropWhile
      Char.isWhitespace).reverse⟩

/-- JavaScript `s.startsWith(p)`. -/
def jsStartsWith (s p : String) : Bool :=
  p.data.isPrefixOf s.data

/-- JavaScript `s.endsWith(p)`. -/
def jsEndsWith (s p : String) : Bool :=
  p.data.isSuffixOf s.data

/-- JavaScript `s.toLowerCase()` (ASCII range, which is all the source
compares). -/
def jsToLower (s : String) : String :=
  ⟨s.data.map Char.toLower⟩

/-- A DOM element matched by the selector. -/
structure Element where
  href : String
  text : String
  downloadAttr : Option String
deriving Repr, DecidableEq

/-- JavaScript `a || b` for `a : string | undefined`: `undefined` and the
empty string are falsy. -/
def jsOrString : Option String → String → String
  | some s, b => if s = "" then b else s
  | none, b => b

/-- `urlParts[urlParts.length - 1]` after `url.split("/")`: everything
after the last slash (the empty string when the URL ends in a slash or
is empty). -/
def lastUrlSegment (url : String) : String :=
  ⟨url.data.foldl (fun acc c => if c = '/' then [] else acc ++ [c]) []⟩

/-- The filename derivation of `extractDownloadLinks` (lines 84-91, 102):
`downloadAttr || text`, then the last URL segment if that is empty, then
the placeholder `file-<i>.csv`. -/
def primaryFilename (e : Element) (i : Nat) : String :=
  let f1 := jsOrString e.downloadAttr (jsTrim e.text)
  let f2 := if f1 = "" then lastUrlSegment e.href else f1
  if f2 = "" then "file-" ++ toString i ++ ".csv" else f2

/-- The filename derivation of `fetchLinksWithCurl` (line 331):
`text || file-<i>.csv` only. -/
def fallbackFilename (e : Element) (i : Nat) : String :=
  if jsTrim e.text = "" then "file-" ++ toString i ++ ".csv" else jsTrim e.text

/-- The URL resolution shared by both strategies (lines 93-98 and
322-327): a URL starting with `/` is prefixed with the configured page's
protocol and host, any other URL is used as is. -/
def resolveUrl (url : String) : String :=
  if jsStartsWith url "/" then
    CONFIG_urlProtocol ++ "//" ++ CONFIG_urlHost ++ url
  else url

/-- `extractDownloadLinks`: the links pushed for the matched elements, in
document order, with 0-based element indices (`each((i, element) ...)`).
The model starts from the matched elements, i.e. after the fetch and the
selector query have succeeded. -/
def extractDownloadLinks (elements : List Element) : List Link :=
  elements.enum.map fun p =>
    { url := resolveUrl p.2.href, filename := primaryFilename p.2 p.1 }

/-- `fetchLinksWithCurl`: the links pushed by the fallback strategy for
the same matched elements. -/
def fetchLinksWithCurl (elements : List Element) : List Link :=
  elements.enum.map fun p =>
    { url := resolveUrl p.2.href, filename := fallbackFilename p.2 p.1 }

/-- Modelled from the spec (§4.1), for comparison with the two source
implementations: derive the filename with priority order (a) the
`download` attribute if present and non-empty, (b) the element's trimmed
visible text, (c) the last path segment of the URL, (d) the generated
placeholder `file-<i>.csv` — first non-empty wins. -/
def specFilenamePriority (e : Element) (i : Nat) : String :=
  match e.downloadAttr with
  | some a =>
    if a ≠ "" then a
    else if jsTrim e.text ≠ "" then jsTrim e.text
    else if lastUrlSegment e.href ≠ "" then lastUrlSegment e.href
    else "file-" ++ toString i ++ ".csv"
  | none =>
    if jsTrim e.text ≠ "" then jsTrim e.text
    else if lastUrlSegment e.href ≠ "" then lastUrlSegment e.href
    else "file-" ++ toString i ++ ".csv"

/-- Modelled from the spec (§3, "url: string (absolute)"): a URL is
absolute when it carries an http or https scheme. -/
def isAbsoluteUrl (s : String) : Bool :=
  "http://".data.isPrefixOf s.data || "https://".data.isPrefixOf s.data

/-! ## Post-processing (`processDownloadedFiles`, lines 217-273)

The filesystem and the `unzip` subprocess are oracles: `extractOr`
receives the archive path and the extraction directory, `copyOr` the
source and destination paths; `.error msg` is the logged failure. Each
iteration of the loop is wrapped in `try/catch`, so one file's failure
only produces a log entry and the loop continues. -/

/-- What one loop iteration of `processDownloadedFiles` did. -/
inductive ProcessAction where
  | extracted (archivePath extractDir : String)
  | copied (src dest : String)
  | errorLogged (filename message : String)
deriving Repr, DecidableEq

/-- `path.basename`: the last `/`-separated segment. -/
def basename (p : String) : String :=
  ⟨p.data.foldl (fun acc c => if c = '/' then [] else acc ++ [c]) []⟩

/-- `path.basename(filename, ".zip")`: strip a trailing `.zip`. -/
def basenameWithoutZip (filename : String) : String :=
  if jsEndsWith filename ".zip" then ⟨filename.data.take (filename.data.length - 4)⟩
  else filename

/-- One iteration of the loop of `processDownloadedFiles`: the `try`
block extracts a `.zip` (case-insensitively) or copies any other file,
and the `catch` block turns a failure into a log entry. -/
def processFile (extractOr : String → String → Except String Unit)
    (copyOr : String → String → Except String Unit)
    (processingDir : String) (filePath : String) : ProcessAction :=
  let filename := basename filePath
  if jsEndsWith (jsToLower filename) ".zip" then
    let extractDir := processingDir ++ "/" ++ basenameWithoutZip filename
    match extractOr filePath extractDir with
    | .ok _ => .extracted filePath extractDir
    | .error e => .errorLogged filename e
  else
    let destPath := processingDir ++ "/" ++ filename
    match copyOr filePath destPath with
    | .ok _ => .copied filePath destPath
    | .error e => .errorLogged filename e

/-- `processDownloadedFiles(downloadResults)`: iterate over
`downloadResults.success` only, one action per file. -/
def processDownloadedFiles (extractOr copyOr : String → String → Except String Unit)
    (processingDir : String) (downloadResults : DownloadResults) :
    List ProcessAction :=
  downloadResults.success.map fun f =>
    processFile extractOr copyOr processingDir f.filePath

/-! ## Run metadata (`saveMetadata`, lines 276-296) -/

/-- The `metadata` object written to `_metadata.json`. -/
structure RunMetadata where
  timestamp : String
  downloadDirectory : String
  totalFiles : Nat
  successfulDownloads : Nat
  failedDownloads : Nat
  failedFiles : List String
deriving Repr, DecidableEq

/-- `saveMetadata(downloadResults)`: counts from the two result lists and
`failedFiles = downloadResults.failed.map(f => f.filename)` — the
filename carried over from the link by the object spread, not the
sanitized one. -/
def saveMetadata (timestamp downloadDir : String)
    (downloadResults : DownloadResults) : RunMetadata :=
  { timestamp := timestamp
    downloadDirectory := downloadDir
    totalFiles := downloadResults.success.length + downloadResults.failed.length
    successfulDownloads := downloadResults.success.length
    failedDownloads := downloadResults.failed.length
    failedFiles := downloadResults.failed.map fun f => f.link.filename }

/-! ## The main function (`main`, lines 349-392)

The two link-extraction strategies are modelled by their results:
`primary` is what `await extractDownloadLinks()` does (`.error` when it
throws), `fallback` what `await fetchLinksWithCurl()` does. The record
tracks what the run performed. -/

/-- Observable outcome of one `main()` run. -/
structure MainRun where
  /-- How many times `fetchLinksWithCurl` was invoked. -/
  fallbackInvocations : Nat
  /-- The error that escaped the link-extraction phase into the outer
  `catch`, if any. -/
  linkPhaseError : Option String
  /-- The links the pipeline ran on. -/
  links : List Link
  /-- How many `downloadFile` invocations were issued. -/
  downloadsAttempted : Nat
  /-- The actions of `processDownloadedFiles`, if that phase ran. -/
  processedActions : Option (List ProcessAction)
  /-- The metadata record of `saveMetadata`, if that phase ran. -/
  metadata : Option RunMetadata
deriving Repr, DecidableEq

/-- Lines 369-386 of `main`: the early return on zero links, then
download, post-process, and metadata. -/
def runPipeline (net : Net) (extractOr copyOr : String → String → Except String Unit)
    (dir processingDir timestamp : String) (B : Nat) (σ : Sched)
    (links : List Link) (fallbackInvocations : Nat) : MainRun :=
  if links.length = 0 then
    { fallbackInvocations := fallbackInvocations
      linkPhaseError := none
      links := links
      downloadsAttempted := 0
      processedActions := none
      metadata := none }
  else
    let downloadResults := downloadAllFiles net dir B σ links
    { fallbackInvocations := fallbackInvocations
      linkPhaseError := none
      links := links
      downloadsAttempted := links.length
      processedActions :=
        some (processDownloadedFiles extractOr copyOr processingDir downloadResults)
      metadata := some (saveMetadata timestamp dir downloadResults) }

/-- `main()`: try the primary extraction; on failure invoke the fallback
once; if the fallback rejects too, its error reaches the outer `catch`
(`Job failed`) and nothing else runs. -/
def mainModel (primary fallback : Except String (List Link)) (net : Net)
    (extractOr copyOr : String → String → Except String Unit)
    (dir processingDir timestamp : String) (B : Nat) (σ : Sched) : MainRun :=
  match primary with
  | .ok links =>
    runPipeline net extractOr copyOr dir processingDir timestamp B σ links 0
  | .error _ =>
    match fallback with
    | .ok links =>
      runPipeline net extractOr copyOr dir processingDir timestamp B σ links 1
    | .error e =>
      { fallbackInvocations := 1
        linkPhaseError := some e
        links := []
        downloadsAttempted := 0
        processedActions := none
        metadata := none }

/-! ## Further helper lemmas -/

theorem exists_mem_enumFrom {α : Type} {x : α} {l : List α} (h : x ∈ l) :
    ∀ s, ∃ i, (i, x) ∈ List.enumFrom s l := by
  induction l with
  | nil => cases h
  | cons a l ih =>
    intro s
    rcases List.mem_cons.mp h with rfl | h'
    · exact ⟨s, List.mem_cons_self _ _⟩
    · obtain ⟨i, hi⟩ := ih h' (s + 1)
      exact ⟨i, List.mem_cons_of_mem _ hi⟩

theorem filterMap_guard_id {α : Type} (p : α → Bool) (l : List α) :
    l.filterMap (fun x => if p x then some x else none) = l.filter p := by
  induction l with
  | nil => simp
  | cons a l ih =>
    by_cases h : p a <;> simp [List.filterMap_cons, List.filter_cons, h, ih]

/-! ## Fixtures for the concrete witnesses

A small concrete run: three links, the middle one fails on the network,
and the within-batch completion order is reversed (a nontrivial
permutation schedule). -/

/-- A network oracle that fails exactly the middle demo link. -/
def demoNet : Net := fun l =>
  if l.filename = "bad file.csv" then .error "net fail" else .ok ()

/-- The failing demo link. -/
def demoBadLink : Link := ⟨"https://www.konzum.hr/b", "bad file.csv"⟩

/-- Three extracted demo links. -/
def demoLinks : List Link :=
  [⟨"https://www.konzum.hr/a.csv", "a.csv"⟩, demoBadLink,
    ⟨"https://www.konzum.hr/c.csv", "c.csv"⟩]

/-- A schedule that settles every batch in reverse submission order. -/
def reverseSched : Sched := fun b => b.reverse

theorem reverseSched_perm : ∀ b, (reverseSched b).Perm b := fun b =>
  List.reverse_perm b

/-- An extraction oracle that always succeeds. -/
def demoExtractOk : String → String → Except String Unit := fun _ _ => .ok ()

/-- A copy oracle that always succeeds. -/
def demoCopyOk : String → String → Except String Unit := fun _ _ => .ok ()

/-- An extraction oracle that always fails. -/
def demoExtractFail : String → String → Except String Unit := fun _ _ =>
  .error "unzip: exit 1"

/-- A copy oracle that always fails. -/
def demoCopyFail : String → String → Except String Unit := fun _ _ =>
  .error "EACCES"

/-! ## Claim C3: sanitization -/

/-- C3 counterexample: on `"bad file.csv"` the sanitized name contains
an underscore, which is outside `[A-Za-z0-9.-]`, so sanitize does not
produce only characters of that class. -/
theorem claim3_counterexample :
    ¬ ∀ c ∈ (sanitize "bad file.csv").data, isAllowedChar c = true := by
  decide

/-- C3 (amended): sanitization is idempotent,
`sanitize (sanitize x) = sanitize x`, and every character of
`sanitize x` lies in `[A-Za-z0-9.-]` or is the replacement character
underscore. -/
theorem claim3_sanitize_idempotent_and_chars (s : String) :
    sanitize (sanitize s) = sanitize s
    ∧ ∀ c ∈ (sanitize s).data, isAllowedChar c = true ∨ c = '_' :=
  ⟨sanitize_sanitize s, fun _ hc => sanitize_mem_char hc⟩

/-- Witness for C3 at the concrete input `"bad file.csv"` and its
underscore character. -/
theorem claim3_witness :
    sanitize (sanitize "bad file.csv") = sanitize "bad file.csv"
    ∧ (isAllowedChar '_' = true ∨ '_' = '_') :=
  ⟨(claim3_sanitize_idempotent_and_chars "bad file.csv").1,
    (claim3_sanitize_idempotent_and_chars "bad file.csv").2 '_' (by decide)⟩

/-! ## Claim C1: outcome partition and batch ordering -/

/-- C1: for every link list, batch size and completion schedule, the
batch scheduler produces exactly one outcome per link:
`|success| + |failed| = N`, and the links of the outcomes are, as a
multiset, exactly the input links (none lost, none duplicated). In the
event trace, for every `k` the trace splits so that all issue events of
batches `0..k` (global indices `≤ (k+1)*B`) are in the first part and
all settle events of batches `k+1..` are in the second: every download
of a batch settles before any download of a later batch is issued. -/
theorem claim1_partition_and_batch_order (net : Net) (dir : String)
    (B : Nat) (σ : Sched) (links : List Link)
    (hB : 0 < B) (hσ : ∀ b, (σ b).Perm b) :
    ((downloadAllFiles net dir B σ links).success.length
        + (downloadAllFiles net dir B σ links).failed.length = links.length)
    ∧ ((downloadAllFiles net dir B σ links).success.map SuccessEntry.link
        ++ (downloadAllFiles net dir B σ links).failed.map FailedEntry.link).Perm
        links
    ∧ ∀ k, ∃ t₁ t₂,
        downloadTrace net dir B σ links = t₁ ++ t₂
        ∧ (∀ i, DlEvent.issue i ∈ t₁ → i ≤ (k + 1) * B)
        ∧ (∀ i r, DlEvent.settle i r ∈ t₂ → (k + 1) * B < i) := by
  obtain ⟨hs, hf⟩ := downloadAllFiles_perm net dir B σ hσ links
  refine ⟨?_, ?_, ?_⟩
  · rw [hs.length_eq, hf.length_eq]
    have := filterMap_succ_fail_length net dir (links.enumFrom 1)
    rw [List.enumFrom_length] at this
    exact this
  · have hmaps : ((links.enumFrom 1).filterMap (succOf net dir)).map
        SuccessEntry.link = links.filter (fun l => !isFailB net l) := by
      rw [List.map_filterMap,
        List.filterMap_congr (fun q _ => succOf_map_link net dir q),
        show (fun q : Nat × Link => if !isFailB net q.2 then some q.2 else none)
            = (fun l : Link => if !isFailB net l then some l else none) ∘ Prod.snd
          from rfl,
        ← List.filterMap_map, List.enumFrom_map_snd, filterMap_guard_id]
    have hmapf : ((links.enumFrom 1).filterMap (failOf net dir)).map
        FailedEntry.link = links.filter (isFailB net) := by
      rw [List.map_filterMap,
        List.filterMap_congr (fun q _ => failOf_map_link net dir q),
        show (fun q : Nat × Link => if isFailB net q.2 then some q.2 else none)
            = (fun l : Link => if isFailB net l then some l else none) ∘ Prod.snd
          from rfl,
        ← List.filterMap_map, List.enumFrom_map_snd, filterMap_guard_id]
    have hperm := (hs.map SuccessEntry.link).append (hf.map FailedEntry.link)
    rw [hmaps, hmapf] at hperm
    refine hperm.trans ?_
    have := List.filter_append_perm (fun l => !isFailB net l) links
    simpa [Bool.not_not] using this
  · intro k
    obtain ⟨t₁, t₂, heq, hiss, hset⟩ :=
      downloadTraceAux_split net dir B σ hB hσ links.length links le_rfl 1 k
    refine ⟨t₁, t₂, heq, ?_, ?_⟩
    · intro i hi
      have := hiss i hi
      omega
    · intro i r hir
      have := hset i r hir
      omega

/-- Witness for C1 on the concrete demo run (batch size 2, reversed
completion order, one failing link): 2 successes + 1 failure = 3. -/
theorem claim1_witness :
    (downloadAllFiles demoNet "downloads" 2 reverseSched demoLinks).success.length
      + (downloadAllFiles demoNet "downloads" 2 reverseSched demoLinks).failed.length
      = 3 :=
  (claim1_partition_and_batch_order demoNet "downloads" 2 reverseSched demoLinks
    (by decide) reverseSched_perm).1

/-! ## Claim C4: per-link failure isolation -/

/-- C4: a link whose download fails always lands in the failed list with
its error, never in the success list; and replacing the network
behaviour of that one link (for example making it succeed) leaves every
other link's outcomes unchanged (up to completion order): the failure
neither fails nor cancels siblings in its batch or later batches. -/
theorem claim4_failure_isolated (net : Net) (dir : String) (B : Nat)
    (σ : Sched) (links : List Link) (l : Link) (e : String)
    (hσ : ∀ b, (σ b).Perm b) (hl : l ∈ links) (hfail : net l = .error e) :
    (∃ f ∈ (downloadAllFiles net dir B σ links).failed,
        f.link = l ∧ f.error = e)
    ∧ (∀ s ∈ (downloadAllFiles net dir B σ links).success, s.link ≠ l)
    ∧ ∀ net2 : Net, (∀ x, x ≠ l → net2 x = net x) →
        ((downloadAllFiles net dir B σ links).success.filter
            (fun s => s.link ≠ l)).Perm
          ((downloadAllFiles net2 dir B σ links).success.filter
            (fun s => s.link ≠ l))
        ∧ ((downloadAllFiles net dir B σ links).failed.filter
            (fun f => f.link ≠ l)).Perm
          ((downloadAllFiles net2 dir B σ links).failed.filter
            (fun f => f.link ≠ l)) := by
  obtain ⟨hs, hf⟩ := downloadAllFiles_perm net dir B σ hσ links
  refine ⟨?_, ?_, ?_⟩
  · obtain ⟨i, hi⟩ := exists_mem_enumFrom hl 1
    refine ⟨⟨l, e⟩, ?_, rfl, rfl⟩
    refine hf.mem_iff.mpr (List.mem_filterMap.mpr ⟨(i, l), hi, ?_⟩)
    simp [failOf, downloadFile, hfail]
  · intro s hsm
    obtain ⟨q, -, hq⟩ := List.mem_filterMap.mp (hs.mem_iff.mp hsm)
    cases hn : net q.2 with
    | ok u =>
      simp [succOf, downloadFile, hn] at hq
      subst hq
      intro hcontra
      have hql : q.2 = l := hcontra
      rw [hql, hfail] at hn
      cases hn
    | error e2 => simp [succOf, downloadFile, hn] at hq
  · intro net2 hagree
    obtain ⟨hs2, hf2⟩ := downloadAllFiles_perm net2 dir B σ hσ links
    have hsagree : ∀ q : Nat × Link,
        Option.filter (fun s => decide (s.link ≠ l)) (succOf net dir q)
          = Option.filter (fun s => decide (s.link ≠ l)) (succOf net2 dir q) := by
      intro q
      by_cases hq : q.2 = l
      · subst hq
        cases h1 : net q.2 <;> cases h2 : net2 q.2 <;>
          simp [succOf, downloadFile, h1, h2, Option.filter]
      · have hnn : net2 q.2 = net q.2 := hagree q.2 hq
        simp only [succOf, downloadFile, hnn]
    have hfagree : ∀ q : Nat × Link,
        Option.filter (fun f => decide (f.link ≠ l)) (failOf net dir q)
          = Option.filter (fun f => decide (f.link ≠ l)) (failOf net2 dir q) := by
      intro q
      by_cases hq : q.2 = l
      · subst hq
        cases h1 : net q.2 <;> cases h2 : net2 q.2 <;>
          simp [failOf, downloadFile, h1, h2, Option.filter]
      · have hnn : net2 q.2 = net q.2 := hagree q.2 hq
        simp only [failOf, downloadFile, hnn]
    constructor
    · refine ((hs.filter _).trans ?_).trans (hs2.filter _).symm
      rw [List.filter_filterMap, List.filter_filterMap]
      exact List.Perm.of_eq
        (List.filterMap_congr fun q _ => hsagree q)
    · refine ((hf.filter _).trans ?_).trans (hf2.filter _).symm
      rw [List.filter_filterMap, List.filter_filterMap]
      exact List.Perm.of_eq
        (List.filterMap_congr fun q _ => hfagree q)

/-- Witness for C4: in the demo run, the failing link ends up in the
failed list with its network error. -/
theorem claim4_witness :
    ∃ f ∈ (downloadAllFiles demoNet "downloads" 2 reverseSched demoLinks).failed,
      f.link = demoBadLink ∧ f.error = "net fail" :=
  (claim4_failure_isolated demoNet "downloads" 2 reverseSched demoLinks
    demoBadLink "net fail" reverseSched_perm (by decide) (by decide)).1

/-! ## Claim C6: metadata counts -/

/-- C6: for every download result, the recorded metadata satisfies
`totalFiles = successfulDownloads + failedDownloads`, and its list of
failed filenames has exactly `failedDownloads` entries (one per failed
link). -/
theorem claim6_metadata_counts (timestamp dir : String)
    (r : DownloadResults) :
    (saveMetadata timestamp dir r).totalFiles
        = (saveMetadata timestamp dir r).successfulDownloads
          + (saveMetadata timestamp dir r).failedDownloads
    ∧ (saveMetadata timestamp dir r).failedFiles.length
        = (saveMetadata timestamp dir r).failedDownloads := by
  refine ⟨rfl, ?_⟩
  simp [saveMetadata]

/-! ## Claim C10: failed filenames are the original suggested names -/

/-- C10: the failed-files list of the run metadata consists exactly of
the original suggested filenames of the links whose download failed (as
extracted from the page and carried by the object spread), not of the
sanitized on-disk names. -/
theorem claim10_failed_files_original (net : Net)
    (timestamp dir : String) (B : Nat) (σ : Sched) (links : List Link)
    (hσ : ∀ b, (σ b).Perm b) :
    ((saveMetadata timestamp dir
        (downloadAllFiles net dir B σ links)).failedFiles).Perm
      ((links.filter (isFailB net)).map Link.filename) := by
  obtain ⟨-, hf⟩ := downloadAllFiles_perm net dir B σ hσ links
  have h1 : (saveMetadata timestamp dir
      (downloadAllFiles net dir B σ links)).failedFiles
      = (downloadAllFiles net dir B σ links).failed.map
        (fun f => f.link.filename) := rfl
  rw [h1]
  refine (hf.map _).trans (List.Perm.of_eq ?_)
  rw [List.map_filterMap,
    List.filterMap_congr (fun q _ => failOf_map_filename net dir q),
    show (fun q : Nat × Link =>
          if isFailB net q.2 then some q.2.filename else none)
        = (fun l : Link => if isFailB net l then some l.filename else none)
          ∘ Prod.snd from rfl,
    ← List.filterMap_map, List.enumFrom_map_snd, filterMap_guard]

/-- Witness for C10: in the demo run the recorded name is the original
`"bad file.csv"`, which differs from its sanitized form. -/
theorem claim10_witness :
    ((saveMetadata "t" "downloads"
        (downloadAllFiles demoNet "downloads" 2 reverseSched demoLinks)).failedFiles).Perm
      ((demoLinks.filter (isFailB demoNet)).map Link.filename)
    ∧ (saveMetadata "t" "downloads"
        (downloadAllFiles demoNet "downloads" 2 reverseSched demoLinks)).failedFiles
        = ["bad file.csv"]
    ∧ sanitize "bad file.csv" ≠ "bad file.csv" :=
  ⟨claim10_failed_files_original demoNet "t" "downloads" 2 reverseSched
      demoLinks reverseSched_perm,
    by decide, by decide⟩

/-! ## Claim C2: which error propagates when both strategies fail -/

/-- C2 counterexample: with distinct primary and fallback errors, the
error that escapes the link-extraction phase is the fallback's
(`curl failed`), not the primary's (`axios failed`). -/
theorem claim2_counterexample :
    (mainModel (.error "axios failed") (.error "curl failed") demoNet
        demoExtractOk demoCopyOk "downloads" "processing" "t" 5
        reverseSched).linkPhaseError = some "curl failed"
    ∧ (mainModel (.error "axios failed") (.error "curl failed") demoNet
        demoExtractOk demoCopyOk "downloads" "processing" "t" 5
        reverseSched).linkPhaseError ≠ some "axios failed" := by
  exact ⟨rfl, by decide⟩

/-- C2 (amended): when the primary link-extraction strategy fails and
the fallback strategy also fails, the error that propagates out of the
run's link-extraction phase is the fallback's error; the primary's error
is only logged as a warning. -/
theorem claim2_fallback_error_propagates (ea eb : String) (net : Net)
    (extractOr copyOr : String → String → Except String Unit)
    (dir processingDir timestamp : String) (B : Nat) (σ : Sched) :
    (mainModel (.error ea) (.error eb) net extractOr copyOr dir
        processingDir timestamp B σ).linkPhaseError = some eb := rfl

/-! ## Claim C5: fallback invocation policy -/

/-- C5: if the primary strategy fails, the fallback is invoked exactly
once; if additionally the fallback fails, the run performs no download,
no post-processing and writes no metadata; if the primary succeeds, the
fallback is never invoked. -/
theorem claim5_fallback_policy (primary fallback : Except String (List Link))
    (net : Net) (extractOr copyOr : String → String → Except String Unit)
    (dir processingDir timestamp : String) (B : Nat) (σ : Sched) :
    (∀ e, primary = .error e →
      (mainModel primary fallback net extractOr copyOr dir processingDir
          timestamp B σ).fallbackInvocations = 1)
    ∧ (∀ e eb, primary = .error e → fallback = .error eb →
      (mainModel primary fallback net extractOr copyOr dir processingDir
          timestamp B σ).downloadsAttempted = 0
      ∧ (mainModel primary fallback net extractOr copyOr dir processingDir
          timestamp B σ).processedActions = none
      ∧ (mainModel primary fallback net extractOr copyOr dir processingDir
          timestamp B σ).metadata = none)
    ∧ (∀ ls, primary = .ok ls →
      (mainModel primary fallback net extractOr copyOr dir processingDir
          timestamp B σ).fallbackInvocations = 0) := by
  refine ⟨?_, ?_, ?_⟩
  · intro e he
    subst he
    cases fallback with
    | ok ls =>
      simp only [mainModel, runPipeline]
      split <;> rfl
    | error eb => rfl
  · intro e eb he heb
    subst he
    subst heb
    exact ⟨rfl, rfl, rfl⟩
  · intro ls hls
    subst hls
    simp only [mainModel, runPipeline]
    split <;> rfl

/-- Witness for C5 at concrete strategy results. -/
theorem claim5_witness :
    (mainModel (.error "axios failed") (.error "curl failed") demoNet
        demoExtractOk demoCopyOk "downloads" "processing" "t" 5
        reverseSched).fallbackInvocations = 1
    ∧ (mainModel (.error "axios failed") (.error "curl failed") demoNet
        demoExtractOk demoCopyOk "downloads" "processing" "t" 5
        reverseSched).downloadsAttempted = 0
    ∧ (mainModel (.ok demoLinks) (.error "curl failed") demoNet
        demoExtractOk demoCopyOk "downloads" "processing" "t" 5
        reverseSched).fallbackInvocations = 0 :=
  ⟨(claim5_fallback_policy (.error "axios failed") (.error "curl failed")
      demoNet demoExtractOk demoCopyOk "downloads" "processing" "t" 5
      reverseSched).1 "axios failed" rfl,
    ((claim5_fallback_policy (.error "axios failed") (.error "curl failed")
      demoNet demoExtractOk demoCopyOk "downloads" "processing" "t" 5
      reverseSched).2.1 "axios failed" "curl failed" rfl rfl).1,
    (claim5_fallback_policy (.ok demoLinks) (.error "curl failed")
      demoNet demoExtractOk demoCopyOk "downloads" "processing" "t" 5
      reverseSched).2.2 demoLinks rfl⟩

/-! ## Claim C9: post-processing never aborts the run -/

/-- C9: whatever the extraction and copy oracles do — including failing
on every single file — `processDownloadedFiles` is a total function that
yields exactly one action per successfully downloaded file, and the run
always reaches the metadata-recording step with the full download
results. -/
theorem claim9_processing_total (primary fallback : Except String (List Link))
    (net : Net) (extractOr copyOr : String → String → Except String Unit)
    (dir processingDir timestamp : String) (B : Nat) (σ : Sched)
    (links : List Link) (hp : primary = .ok links)
    (hne : links.length ≠ 0) :
    (mainModel primary fallback net extractOr copyOr dir processingDir
        timestamp B σ).processedActions
      = some (processDownloadedFiles extractOr copyOr processingDir
          (downloadAllFiles net dir B σ links))
    ∧ (processDownloadedFiles extractOr copyOr processingDir
          (downloadAllFiles net dir B σ links)).length
        = (downloadAllFiles net dir B σ links).success.length
    ∧ (mainModel primary fallback net extractOr copyOr dir processingDir
        timestamp B σ).metadata
      = some (saveMetadata timestamp dir (downloadAllFiles net dir B σ links)) := by
  subst hp
  refine ⟨?_, ?_, ?_⟩
  · simp [mainModel, runPipeline, hne]
  · simp [processDownloadedFiles]
  · simp [mainModel, runPipeline, hne]

/-- Witness for C9: with oracles that fail on every file, the demo run
still records its metadata and processes one action per downloaded
file. -/
theorem claim9_witness :
    (mainModel (.ok demoLinks) (.error "curl failed") demoNet
        demoExtractFail demoCopyFail "downloads" "processing" "t" 5
        reverseSched).processedActions
      = some (processDownloadedFiles demoExtractFail demoCopyFail "processing"
          (downloadAllFiles demoNet "downloads" 5 reverseSched demoLinks))
    ∧ (mainModel (.ok demoLinks) (.error "curl failed") demoNet
        demoExtractFail demoCopyFail "downloads" "processing" "t" 5
        reverseSched).metadata
      = some (saveMetadata "t" "downloads"
          (downloadAllFiles demoNet "downloads" 5 reverseSched demoLinks)) :=
  ⟨(claim9_processing_total (.ok demoLinks) (.error "curl failed") demoNet
      demoExtractFail demoCopyFail "downloads" "processing" "t" 5
      reverseSched demoLinks rfl (by decide)).1,
    (claim9_processing_total (.ok demoLinks) (.error "curl failed") demoNet
      demoExtractFail demoCopyFail "downloads" "processing" "t" 5
      reverseSched demoLinks rfl (by decide)).2.2⟩

/-! ## Claim C7: filename derivation of the two strategies -/

/-- C7 counterexample: on an element with a `download` attribute and
empty text, the fallback produces the placeholder instead of the
attribute (or the URL segment), so the two implementations do not share
the claimed priority order. -/
theorem claim7_counterexample :
    fallbackFilename ⟨"https://www.konzum.hr/y.csv", "", some "d.csv"⟩ 0
      ≠ specFilenamePriority ⟨"https://www.konzum.hr/y.csv", "", some "d.csv"⟩ 0
    ∧ fallbackFilename ⟨"https://www.konzum.hr/y.csv", "", some "d.csv"⟩ 0
      ≠ primaryFilename ⟨"https://www.konzum.hr/y.csv", "", some "d.csv"⟩ 0 := by
  decide

/-- C7 (amended): the primary strategy implements the full priority
order (download attribute, trimmed text, last URL segment, placeholder —
first non-empty wins), but the fallback only uses the trimmed text and
the placeholder: it behaves like the common algorithm run with no
download attribute and an empty URL. -/
theorem claim7_filename_priority (e : Element) (i : Nat) :
    primaryFilename e i = specFilenamePriority e i
    ∧ fallbackFilename e i = specFilenamePriority ⟨"", e.text, none⟩ i := by
  constructor
  · cases h : e.downloadAttr with
    | none =>
      by_cases ht : jsTrim e.text = "" <;>
        by_cases hseg : lastUrlSegment e.href = "" <;>
          simp [primaryFilename, specFilenamePriority, jsOrString, h, ht, hseg]
    | some a =>
      by_cases ha : a = "" <;>
        by_cases ht : jsTrim e.text = "" <;>
          by_cases hseg : lastUrlSegment e.href = "" <;>
            simp [primaryFilename, specFilenamePriority, jsOrString, h, ha,
              ht, hseg]
  · by_cases ht : jsTrim e.text = "" <;>
      simp [fallbackFilename, specFilenamePriority, ht,
        show lastUrlSegment "" = "" from rfl]

/-! ## Claim C8: URL resolution at extraction time -/

/-- C8 counterexample: a relative href that is not root-relative (no
leading slash) is passed through unresolved by both strategies, so not
every extracted link has an absolute URL. -/
theorem claim8_counterexample :
    (∃ lnk ∈ extractDownloadLinks [⟨"docs/a.csv", "Prices", none⟩],
        isAbsoluteUrl lnk.url = false)
    ∧ (∃ lnk ∈ fetchLinksWithCurl [⟨"docs/a.csv", "Prices", none⟩],
        isAbsoluteUrl lnk.url = false) := by
  decide

/-- C8 (amended): both strategies resolve URLs with the same rule, at
extraction time: a root-relative URL (leading slash) is made absolute
against the configured page's protocol and host; any other URL is used
unchanged. -/
theorem claim8_url_resolution (url : String) (elements : List Element) :
    (jsStartsWith url "/" = true → isAbsoluteUrl (resolveUrl url) = true)
    ∧ (jsStartsWith url "/" = false → resolveUrl url = url)
    ∧ (extractDownloadLinks elements).map Link.url
        = elements.map (fun e => resolveUrl e.href)
    ∧ (fetchLinksWithCurl elements).map Link.url
        = elements.map (fun e => resolveUrl e.href) := by
  refine ⟨?_, ?_, ?_, ?_⟩
  · intro h
    simp only [resolveUrl, CONFIG_urlProtocol, CONFIG_urlHost, h, if_true]
    have hdata : ("https:" ++ "//" ++ "www.konzum.hr" ++ url).data
        = ("https:" ++ "//" ++ "www.konzum.hr").data ++ url.data := by
      rw [String.data_append]
    simp only [isAbsoluteUrl, hdata, Bool.or_eq_true,
      List.isPrefixOf_iff_prefix]
    refine Or.inr (List.IsPrefix.trans ?_ (List.prefix_append _ _))
    decide
  · intro h
    simp [resolveUrl, h]
  · rw [extractDownloadLinks, List.map_map,
      show (Link.url ∘ fun p : Nat × Element =>
          Link.mk (resolveUrl p.2.href) (primaryFilename p.2 p.1))
        = (fun e : Element => resolveUrl e.href) ∘ Prod.snd from rfl,
      ← List.map_map, List.enum_map_snd]
  · rw [fetchLinksWithCurl, List.map_map,
      show (Link.url ∘ fun p : Nat × Element =>
          Link.mk (resolveUrl p.2.href) (fallbackFilename p.2 p.1))
        = (fun e : Element => resolveUrl e.href) ∘ Prod.snd from rfl,
      ← List.map_map, List.enum_map_snd]

/-- Witness for C8 at a root-relative and a non-root-relative URL. -/
theorem claim8_witness :
    isAbsoluteUrl (resolveUrl "/cjenik.csv") = true
    ∧ resolveUrl "relative/path.csv" = "relative/path.csv" :=
  ⟨(claim8_url_resolution "/cjenik.csv" []).1 (by decide),
    (claim8_url_resolution "relative/path.csv" []).2.1 (by decide)⟩

end PriceDownloader
